import Mathlib

/-!
Verification of otter-grader's point allocation (`otter/test_files/abstract_test.py`)
and grade aggregation (`otter/grade/__init__.py`) against its specification.

Numbers are modelled with `Rat` (Python ints/floats under exact arithmetic);
Python exceptions are modelled with `Except`.
-/

/-- Embeds the `TestCase` namedtuple: fields name, body, hidden,
success_message, failure_message, points (all defaulting to `None`;
`points` is the nullable explicit point value). -/
structure TestCase where
  name : Option String
  body : Option String
  hidden : Option Bool
  success_message : Option String
  failure_message : Option String
  points : Option Rat
deriving DecidableEq, Repr

/-- Embeds the `TestCaseResult` namedtuple: fields test_case, message,
passed, points. -/
structure TestCaseResult where
  test_case : Option TestCase
  message : Option String
  passed : Option Bool
  points : Option Rat
deriving DecidableEq, Repr

/-- Python exceptions raised by the embedded code: `ValueError` (the explicit
`raise` in `resolve_point_values`) and `ZeroDivisionError` (the implicit crash
of `pts_left / 0`). -/
inductive PyError
  | valueError (msg : String)
  | zeroDivisionError
deriving DecidableEq, Repr

/-- The message of the over-allocation `ValueError`:
`f"Individual test case point values exceed total question value{': ' if ctx else ''}{ctx}"`. -/
def overallocMsg (ctx : String) : String :=
  "Individual test case point values exceed total question value" ++
    (if ctx = "" then "" else ": ") ++ ctx

/-- The list comprehension `[c.points for c in cases]`. -/
def casePts (cases : List TestCase) : List (Option Rat) :=
  cases.map (fun c => c.points)

/-- `sum(p for p in case_pts if p is not None)`. -/
def totalSpecified (cases : List TestCase) : Rat :=
  ((casePts cases).filterMap id).sum

/-- `len([p for p in case_pts if p is None])`. -/
def numUnspecified (cases : List TestCase) : Nat :=
  ((casePts cases).filter (fun p => p.isNone)).length

/-- The loop body `cases[i] = case._replace(points=pts_per_unspecified_case)`,
applied only when `case.points is None`: a functional replace of the `points`
field of the namedtuple, leaving every other field unchanged. -/
def fillCase (q : Rat) (case : TestCase) : TestCase :=
  match case.points with
  | none => { case with points := some q }
  | some _ => case

/-- Embeds the static method `TestFile.resolve_point_values(value, cases, ctx="")`.
It checks `total_specified > value` (raising `ValueError`), then divides
`pts_left` by the number of unspecified cases (raising `ZeroDivisionError` when
that count is zero, as Python division does) and replaces each case whose
`points is None` by `case._replace(points=pts_per_unspecified_case)`.
The in-place list mutation `cases[i] = ...` is rendered functionally: the
result list is returned. -/
def resolve_point_values (value : Rat) (cases : List TestCase) (ctx : String) :
    Except PyError (List TestCase) :=
  if totalSpecified cases > value then
    Except.error (PyError.valueError (overallocMsg ctx))
  else if numUnspecified cases = 0 then
    Except.error PyError.zeroDivisionError
  else
    let pts_per_unspecified_case := (value - totalSpecified cases) / (numUnspecified cases : Rat)
    Except.ok (cases.map (fillCase pts_per_unspecified_case))

deriving instance DecidableEq for Except

/-- A test case with no fields set except possibly points (helper for
concrete examples). -/
def mkCase (p : Option Rat) : TestCase :=
  ⟨none, none, none, none, none, p⟩

/-- Embeds the `TestFile` instance attributes set by `TestFile.__init__`:
name, path, test_cases, values, passed_all, all_or_nothing,
test_case_results, grade. Nullable attributes are `Option`s. -/
structure TestFile where
  name : String
  path : String
  test_cases : List TestCase
  values : List (Option Rat)
  passed_all : Option Bool
  all_or_nothing : Bool
  test_case_results : List TestCaseResult
  grade : Option Rat
deriving DecidableEq, Repr

/-- Embeds `TestFile.__init__(name, path, test_cases, value=1, all_or_nothing=True)`:
it calls `resolve_point_values(value, test_cases)` (which mutates the case
list in place, here returned), stores the resolved cases as `self.test_cases`,
sets `self.values = [c.points for c in self.test_cases]`, and initialises
`passed_all = None`, `test_case_results = []`, `grade = None`. An exception
raised by `resolve_point_values` propagates out of the constructor. -/
def TestFile.init (name path : String) (test_cases : List TestCase)
    (value : Rat) (all_or_nothing : Bool) : Except PyError TestFile :=
  match resolve_point_values value test_cases "" with
  | Except.error e => Except.error e
  | Except.ok resolved =>
    Except.ok
      { name := name
        path := path
        test_cases := resolved
        values := resolved.map (fun c => c.points)
        passed_all := none
        all_or_nothing := all_or_nothing
        test_case_results := []
        grade := none }

/-- A cell of a pandas DataFrame in `otter.grade`: either a string (the
`file` / `identifier` columns) or a number (score columns). -/
inductive CellVal
  | str (s : String)
  | num (q : Rat)
deriving DecidableEq, Repr

/-- A pandas DataFrame as used by `otter.grade.main`: an ordered column list
and one association list of cells per row. -/
structure Table where
  cols : List String
  rows : List (List (String × CellVal))
deriving DecidableEq, Repr

/-- Errors that can escape `otter.grade.main`: a failed `assert`, a failed
path check from `assert_path_exists`, a `KeyError` from `row["file"]`, and
an exception raised by the metadata parser's `file_to_id` (propagated
uncaught through `DataFrame.apply`). -/
inductive MainError
  | assertionError (msg : String)
  | pathError
  | keyError (k : String)
  | resolverError (e : String)
deriving DecidableEq, Repr

/-- The observable outcome of a normal return of `otter.grade.main`:
whether `prune_images` ran, whether grading containers were launched
(`launch_grade`), and the table written to `final_grades.csv` (`none` when
no CSV was written). -/
structure MainOutcome where
  prunedImages : Bool
  containersLaunched : Bool
  csvWritten : Option Table
deriving DecidableEq, Repr

/-- The keyword arguments of `otter.grade.main` that steer the embedded
control flow. The Python `json`/`yaml` arguments are falsy-or-path flags,
modelled as `Option String`. -/
structure GradeArgs where
  prune : Bool
  force : Bool
  gradescope : Bool
  canvas : Bool
  json : Option String
  yaml : Option String
deriving DecidableEq, Repr

/-- The environment `otter.grade.main` runs in: results of the out-of-scope
collaborators. `path_ok` is the outcome of `assert_path_exists` on
path/output_dir/autograder; `json_ok`/`yaml_ok` the outcome on the metadata
files; `file_to_id` is the metadata parser's resolver (all four concrete
parsers expose the same method); `merged` is `merge_csv(launch_grade(...))`,
the merged grade table. -/
structure GradeEnv where
  path_ok : Bool
  json_ok : Bool
  yaml_ok : Bool
  file_to_id : CellVal → Except String CellVal
  merged : Table

/-- `sum([meta != False for meta in [gradescope, canvas, json, yaml]])`:
the number of metadata flags provided. -/
def metaFlagCount (a : GradeArgs) : Nat :=
  (if a.gradescope then 1 else 0) + (if a.canvas then 1 else 0) +
    (if a.json.isSome then 1 else 0) + (if a.yaml.isSome then 1 else 0)

/-- Whether `main` constructs a metadata parser (some metadata flag given). -/
def usesMetaParser (a : GradeArgs) : Bool :=
  a.gradescope || a.canvas || a.json.isSome || a.yaml.isSome

/-- Embeds the inner function `map_files_to_ids(row)` of `otter.grade.main`,
`return meta_parser.file_to_id(row["file"])`, together with the assignment of
its result into the row's new `identifier` column: `row["file"]` on a row
without that key raises `KeyError`, and an exception from `file_to_id`
propagates uncaught. -/
def map_files_to_ids (f : CellVal → Except String CellVal)
    (r : List (String × CellVal)) : Except MainError (List (String × CellVal)) :=
  match r.lookup "file" with
  | none => Except.error (MainError.keyError "file")
  | some fv =>
    match f fv with
    | Except.error e => Except.error (MainError.resolverError e)
    | Except.ok idv => Except.ok (r ++ [("identifier", idv)])

/-- The row-by-row traversal of `output_df.apply(map_files_to_ids, axis=1)`:
rows are processed in order and the first exception aborts the whole apply. -/
def applyRows (f : CellVal → Except String CellVal) :
    List (List (String × CellVal)) → Except MainError (List (List (String × CellVal)))
  | [] => Except.ok []
  | r :: rs =>
    match map_files_to_ids f r with
    | Except.error e => Except.error e
    | Except.ok r' =>
      match applyRows f rs with
      | Except.error e => Except.error e
      | Except.ok rs' => Except.ok (r' :: rs')

/-- Embeds the identifier-mapping tail of `otter.grade.main`:
`output_df["identifier"] = output_df.apply(map_files_to_ids, axis=1)`
(appending an identifier column computed as `meta_parser.file_to_id(row["file"])`),
then `output_df.drop("file", axis=1, inplace=True)`, then the reorder
`output_df[cols[-1:] + cols[:-1]]` moving the last column (the identifier)
to the front. -/
def apply_identifier (f : CellVal → Except String CellVal) (t : Table) :
    Except MainError Table :=
  match applyRows f t.rows with
  | Except.error e => Except.error e
  | Except.ok rows =>
    let cols2 := (t.cols ++ ["identifier"]).filter (fun c => c ≠ "file")
    let rows2 := rows.map (fun r => r.filter (fun p => p.1 ≠ "file"))
    Except.ok ⟨cols2.getLast?.toList ++ cols2.dropLast, rows2⟩

/-- Embeds `otter.grade.main`: prune short-circuit, the metadata-flag
assertion, the `assert_path_exists` checks, metadata parser construction,
`launch_grade` + `merge_csv` (out of scope, summarised by `env.merged`),
identifier remapping when a parser exists, and the final
`output_df.to_csv(..., "final_grades.csv")` recorded in the outcome. -/
def Grade.main (a : GradeArgs) (env : GradeEnv) : Except MainError MainOutcome :=
  if a.prune then
    Except.ok { prunedImages := true, containersLaunched := false, csvWritten := none }
  else if metaFlagCount a > 1 then
    Except.error (MainError.assertionError
      "You can specify at most one metadata flag (-g, -j, -y, -c)")
  else if !env.path_ok then
    Except.error MainError.pathError
  else if a.json.isSome && !env.json_ok then
    Except.error MainError.pathError
  else if a.yaml.isSome && !env.yaml_ok then
    Except.error MainError.pathError
  else
    match
      (if usesMetaParser a then apply_identifier env.file_to_id env.merged
       else Except.ok env.merged) with
    | Except.error e => Except.error e
    | Except.ok out =>
      Except.ok { prunedImages := false, containersLaunched := true, csvWritten := some out }

/-- Modelled from the spec: the `SubmissionJob` lifecycle states
`{queued, running, completed, failed}` of §3. The SandboxPool implementation
(`otter/grade/containers.py`) is not under `src/`. -/
inductive JobState
  | queued
  | running
  | completed
  | failed
deriving DecidableEq, Repr

/-- Whether a job state is terminal (`completed` or `failed`). -/
def JobState.isTerminal : JobState → Bool
  | JobState.completed => true
  | JobState.failed => true
  | _ => false

/-- Indicator of the `running` state. -/
def runningWeight : JobState → Nat
  | JobState.running => 1
  | _ => 0

/-- The number of jobs in the `running` state. -/
def runningCount (s : List JobState) : Nat :=
  (s.map runningWeight).sum

/-- Progress measure of a job state: queued jobs need two transitions to
become terminal, running jobs one, terminal jobs zero. -/
def poolWeight : JobState → Nat
  | JobState.queued => 2
  | JobState.running => 1
  | _ => 0

/-- Progress measure of a pool state: it strictly decreases on every
scheduler transition. -/
def poolMeasure (s : List JobState) : Nat :=
  (s.map poolWeight).sum

/-- Modelled from the spec: the SandboxPool scheduling transitions of
§4.3 and §5 (the implementation, `otter/grade/containers.py`, is not under
`src/`). The coordinator may start a queued job only while strictly fewer
than `limit` jobs are running; a running job may finish, independently, as
`completed` or `failed` (a sandbox crash marks the job failed and nothing
else). States are ordered lists of per-job lifecycle states. -/
inductive PoolStep (limit : Nat) : List JobState → List JobState → Prop
  | start (jobs : List JobState) (i : Nat)
      (hq : jobs.get? i = some JobState.queued)
      (hr : runningCount jobs < limit) :
      PoolStep limit jobs (jobs.set i JobState.running)
  | finish (jobs : List JobState) (i : Nat) (t : JobState)
      (hq : jobs.get? i = some JobState.running)
      (ht : t = JobState.completed ∨ t = JobState.failed) :
      PoolStep limit jobs (jobs.set i t)

/-- Modelled from the spec: pool executions start with every submitted job
queued; a state is reachable when some interleaving of scheduler
transitions produces it. -/
def PoolReachable (limit n : Nat) (s : List JobState) : Prop :=
  Relation.ReflTransGen (PoolStep limit) (List.replicate n JobState.queued) s

example : resolve_point_values 10 [mkCase none, mkCase none] "" =
    Except.ok [mkCase (some 5), mkCase (some 5)] := by
  norm_num [resolve_point_values, totalSpecified, numUnspecified, casePts, mkCase, fillCase,
    List.filterMap_cons, List.sum_cons]

example : resolve_point_values 10 [mkCase (some 4), mkCase none, mkCase none] "" =
    Except.ok [mkCase (some 4), mkCase (some 3), mkCase (some 3)] := by
  norm_num [resolve_point_values, totalSpecified, numUnspecified, casePts, mkCase, fillCase,
    List.filterMap_cons, List.sum_cons]

example : resolve_point_values 10 [mkCase (some 6), mkCase (some 6)] "" =
    Except.error (PyError.valueError "Individual test case point values exceed total question value") := by
  norm_num [resolve_point_values, totalSpecified, numUnspecified, casePts, mkCase, fillCase, overallocMsg,
    List.filterMap_cons, List.sum_cons]

example : resolve_point_values 10 [mkCase (some 4), mkCase (some 4)] "" =
    Except.error PyError.zeroDivisionError := by
  norm_num [resolve_point_values, totalSpecified, numUnspecified, casePts, mkCase, fillCase,
    List.filterMap_cons, List.sum_cons]

/-! ## Helper lemmas about the point allocator -/

lemma totalSpecified_nil : totalSpecified [] = 0 := rfl

lemma totalSpecified_cons (c : TestCase) (cs : List TestCase) :
    totalSpecified (c :: cs) = c.points.getD 0 + totalSpecified cs := by
  cases hc : c.points <;>
    simp [totalSpecified, casePts, List.filterMap_cons, hc]

lemma numUnspecified_nil : numUnspecified [] = 0 := rfl

lemma numUnspecified_cons (c : TestCase) (cs : List TestCase) :
    numUnspecified (c :: cs) =
      (if c.points = none then 1 else 0) + numUnspecified cs := by
  cases hc : c.points <;>
    simp [numUnspecified, casePts, List.filter_cons, hc, Nat.add_comm]

lemma pointsSum_map_fill (q : Rat) (cases : List TestCase) :
    ((cases.map (fillCase q)).map (fun c => c.points.getD 0)).sum =
      totalSpecified cases + (numUnspecified cases : Rat) * q := by
  induction cases with
  | nil => simp [totalSpecified_nil, numUnspecified_nil]
  | cons c cs ih =>
    rw [List.map_cons, List.map_cons, List.sum_cons, ih,
      totalSpecified_cons, numUnspecified_cons]
    cases hc : c.points with
    | none =>
      simp only [fillCase, hc, Option.getD_some, Option.getD_none, if_pos]
      push_cast
      ring
    | some p =>
      simp only [fillCase, hc]
      simp [hc]
      ring

lemma resolve_ok_eq {value : Rat} {cases : List TestCase} {ctx : String}
    {out : List TestCase}
    (h : resolve_point_values value cases ctx = Except.ok out) :
    totalSpecified cases ≤ value ∧ numUnspecified cases ≠ 0 ∧
      out = cases.map
        (fillCase ((value - totalSpecified cases) / (numUnspecified cases : Rat))) := by
  rw [resolve_point_values] at h
  split at h
  · exact absurd h (by simp)
  · split at h
    · exact absurd h (by simp)
    · rename_i h1 h2
      exact ⟨not_lt.mp h1, h2, (Except.ok.injEq _ _).mp h.symm⟩

lemma resolve_ok_of_unspecified (value : Rat) (cases : List TestCase)
    (ctx : String) (hle : totalSpecified cases ≤ value)
    (hun : numUnspecified cases ≠ 0) :
    resolve_point_values value cases ctx =
      Except.ok (cases.map
        (fillCase ((value - totalSpecified cases) / (numUnspecified cases : Rat)))) := by
  rw [resolve_point_values, if_neg (not_lt.mpr hle), if_neg hun]

/-! ## Claims about the point allocator -/

/-- C1, counterexample: the claim says `resolve_point_values` terminates
normally for EVERY `total_value > 0` and case list whose explicit points sum
to at most `total_value`; but at `total_value = 1` with the single case
`points=1` (explicit sum `1 ≤ 1`) the code divides by zero
(`pts_left / len([]) `) instead of returning. -/
theorem claimC1_counterexample :
    (0 : Rat) < 1 ∧ totalSpecified [mkCase (some 1)] ≤ 1 ∧
      (∀ out, resolve_point_values 1 [mkCase (some 1)] "" ≠ Except.ok out) ∧
      resolve_point_values 1 [mkCase (some 1)] "" =
        Except.error PyError.zeroDivisionError := by
  have hts : totalSpecified [mkCase (some 1)] = 1 := by
    norm_num [totalSpecified, casePts, mkCase, List.filterMap_cons]
  have hun : numUnspecified [mkCase (some 1)] = 0 := rfl
  have h1 : ¬ (totalSpecified [mkCase (some 1)] > 1) := by
    rw [hts]
    exact lt_irrefl 1
  have hres : resolve_point_values 1 [mkCase (some 1)] "" =
      Except.error PyError.zeroDivisionError := by
    rw [resolve_point_values, if_neg h1, if_pos hun]
  refine ⟨one_pos, le_of_eq hts, ?_, hres⟩
  intro out h
  rw [hres] at h
  exact Except.noConfusion h

/-- C1 (amended): for every `total_value > 0` and ordered case list whose
explicitly-specified points sum to at most `total_value` AND which contains
at least one case with unspecified points, `resolve_point_values` terminates
normally, every resulting case has its points populated, and the resulting
per-case points sum to exactly `total_value`. -/
theorem claimC1_resolved_points_sum_to_total (value : Rat)
    (cases : List TestCase) (ctx : String) (hpos : 0 < value)
    (hle : totalSpecified cases ≤ value) (hun : numUnspecified cases ≠ 0) :
    ∃ out, resolve_point_values value cases ctx = Except.ok out ∧
      (∀ c ∈ out, c.points ≠ none) ∧
      (out.map (fun c => c.points.getD 0)).sum = value := by
  refine ⟨_, resolve_ok_of_unspecified value cases ctx hle hun, ?_, ?_⟩
  · intro c hc
    obtain ⟨c₀, -, rfl⟩ := List.mem_map.mp hc
    cases h0 : c₀.points <;> simp [fillCase, h0]
  · rw [pointsSum_map_fill]
    have hn : ((numUnspecified cases : Nat) : Rat) ≠ 0 := Nat.cast_ne_zero.mpr hun
    rw [mul_comm, div_mul_cancel₀ _ hn]
    ring

/-- C1, witness: the amended theorem applied at `total_value = 10` and cases
`[points=4, points=None]`. -/
theorem claimC1_witness :
    (0 : Rat) < 10 ∧ totalSpecified [mkCase (some 4), mkCase none] ≤ 10 ∧
      numUnspecified [mkCase (some 4), mkCase none] ≠ 0 ∧
      ∃ out, resolve_point_values 10 [mkCase (some 4), mkCase none] "" =
          Except.ok out ∧
        (∀ c ∈ out, c.points ≠ none) ∧
        (out.map (fun c => c.points.getD 0)).sum = 10 := by
  have h1 : totalSpecified [mkCase (some 4), mkCase none] ≤ 10 := by
    norm_num [totalSpecified_cons, totalSpecified_nil, mkCase]
  have h2 : numUnspecified [mkCase (some 4), mkCase none] ≠ 0 := by
    norm_num [numUnspecified_cons, numUnspecified_nil, mkCase]
  exact ⟨by norm_num, h1, h2,
    claimC1_resolved_points_sum_to_total 10 _ "" (by norm_num) h1 h2⟩

/-- C2: with every test case carrying explicit points (here `[4, 4]`) and a
nonzero remaining budget (`10 - 8 = 2`), the code crashes with the implicit
`ZeroDivisionError` from `pts_left / len([p for p in case_pts if p is None])`
instead of raising the explicit `AllocationError` the claim mandates: no
`ValueError` (the only explicitly raised error) is produced. -/
theorem claimC2_code_divides_by_zero :
    totalSpecified [mkCase (some 4), mkCase (some 4)] ≤ 10 ∧
    numUnspecified [mkCase (some 4), mkCase (some 4)] = 0 ∧
    (10 : Rat) - totalSpecified [mkCase (some 4), mkCase (some 4)] ≠ 0 ∧
    resolve_point_values 10 [mkCase (some 4), mkCase (some 4)] "" =
      Except.error PyError.zeroDivisionError ∧
    ∀ msg, resolve_point_values 10 [mkCase (some 4), mkCase (some 4)] "" ≠
      Except.error (PyError.valueError msg) := by
  have hts : totalSpecified [mkCase (some 4), mkCase (some 4)] = 8 := by
    norm_num [totalSpecified, casePts, mkCase, List.filterMap_cons]
  have hun : numUnspecified [mkCase (some 4), mkCase (some 4)] = 0 := rfl
  have h1 : ¬ (totalSpecified [mkCase (some 4), mkCase (some 4)] > 10) := by
    rw [hts]
    norm_num
  have hres : resolve_point_values 10 [mkCase (some 4), mkCase (some 4)] "" =
      Except.error PyError.zeroDivisionError := by
    rw [resolve_point_values, if_neg h1, if_pos hun]
  refine ⟨by rw [hts]; norm_num, hun, by rw [hts]; norm_num, hres, ?_⟩
  intro msg h
  rw [hres] at h
  simp at h

/-- C3: whenever the explicitly-specified points of the cases sum to more
than `total_value`, `resolve_point_values` fails with the over-allocation
`ValueError` whose message carries the `ctx` string naming the offending
test file (when a nonempty `ctx` is supplied the message ends in `": " ++ ctx`),
and no resolved case list is produced; `TestFile` construction fails with the
same error, so no test of the file can ever be executed. -/
theorem claimC3_overallocated (value : Rat) (cases : List TestCase)
    (ctx : String) (h : value < totalSpecified cases) :
    resolve_point_values value cases ctx =
      Except.error (PyError.valueError (overallocMsg ctx)) ∧
    (ctx ≠ "" → ∃ pre, overallocMsg ctx = pre ++ ": " ++ ctx) ∧
    (∀ name path aon, TestFile.init name path cases value aon =
      Except.error (PyError.valueError (overallocMsg ""))) := by
  have h1 : ∀ ctx2, resolve_point_values value cases ctx2 =
      Except.error (PyError.valueError (overallocMsg ctx2)) := by
    intro ctx2
    rw [resolve_point_values, if_pos h]
  refine ⟨h1 ctx, ?_, ?_⟩
  · intro hc
    refine ⟨"Individual test case point values exceed total question value", ?_⟩
    rw [overallocMsg, if_neg hc]
  · intro n p aon
    rw [TestFile.init, h1 ""]

/-- C3, witness: the theorem applied at `resolve(10, [points=6, points=6])`
with the test-file context `"q1.py"`. -/
theorem claimC3_witness :
    (10 : Rat) < totalSpecified [mkCase (some 6), mkCase (some 6)] ∧
    (resolve_point_values 10 [mkCase (some 6), mkCase (some 6)] "q1.py" =
        Except.error (PyError.valueError (overallocMsg "q1.py")) ∧
      ("q1.py" ≠ "" → ∃ pre, overallocMsg "q1.py" = pre ++ ": " ++ "q1.py") ∧
      (∀ name path aon,
        TestFile.init name path [mkCase (some 6), mkCase (some 6)] 10 aon =
          Except.error (PyError.valueError (overallocMsg "")))) := by
  have hgt : (10 : Rat) < totalSpecified [mkCase (some 6), mkCase (some 6)] := by
    norm_num [totalSpecified, casePts, mkCase, List.filterMap_cons]
  exact ⟨hgt, claimC3_overallocated 10 _ "q1.py" hgt⟩

/-- C4: with at least one unspecified case and no over-allocation,
`resolve_point_values` succeeds and assigns every unspecified case exactly
`(total_value - sum of explicit points) / count(unspecified)`, leaving the
others as they are (`fillCase` is the identity on cases with explicit
points). -/
theorem claimC4_even_split (value : Rat) (cases : List TestCase) (ctx : String)
    (hle : totalSpecified cases ≤ value) (hun : numUnspecified cases ≠ 0) :
    resolve_point_values value cases ctx =
      Except.ok (cases.map
        (fillCase ((value - totalSpecified cases) / (numUnspecified cases : Rat)))) ∧
    ∀ case ∈ cases, case.points = none →
      (fillCase ((value - totalSpecified cases) / (numUnspecified cases : Rat))
          case).points =
        some ((value - totalSpecified cases) / (numUnspecified cases : Rat)) := by
  refine ⟨resolve_ok_of_unspecified value cases ctx hle hun, ?_⟩
  intro case _ hc
  simp [fillCase, hc]

/-- C4, witness: the theorem applied at `resolve(10, [None, None])`, together
with the concrete outputs `[5, 5]` and (for `resolve(10, [4, None, None])`)
`[4, 3, 3]` from the spec. -/
theorem claimC4_witness :
    totalSpecified [mkCase none, mkCase none] ≤ 10 ∧
    numUnspecified [mkCase none, mkCase none] ≠ 0 ∧
    resolve_point_values 10 [mkCase none, mkCase none] "" =
      Except.ok [mkCase (some 5), mkCase (some 5)] ∧
    resolve_point_values 10 [mkCase (some 4), mkCase none, mkCase none] "" =
      Except.ok [mkCase (some 4), mkCase (some 3), mkCase (some 3)] := by
  have h1 : totalSpecified [mkCase none, mkCase none] ≤ 10 := by
    norm_num [totalSpecified, casePts, mkCase, List.filterMap_cons]
  have h2 : numUnspecified [mkCase none, mkCase none] ≠ 0 := by
    rw [show numUnspecified [mkCase none, mkCase none] = 2 from rfl]
    norm_num
  have h3 := (claimC4_even_split 10 [mkCase none, mkCase none] "" h1 h2).1
  refine ⟨h1, h2, ?_, ?_⟩
  · rw [h3]
    norm_num [totalSpecified, numUnspecified, casePts, mkCase, fillCase,
      List.filterMap_cons]
  · norm_num [resolve_point_values, totalSpecified, numUnspecified, casePts,
      mkCase, fillCase, List.filterMap_cons]

/-- C8: every normal return of `resolve_point_values` preserves the length
and order of the case sequence (`Forall₂` pairs the input and output case at
each index), leaves each explicitly-specified case entirely unchanged, and
changes only the `points` field of each unspecified case (name, body, hidden
and both message fields are untouched); the update is the functional
`fillCase` replace, producing a fresh list rather than mutating shared
records. -/
theorem claimC8_frame (value : Rat) (cases : List TestCase) (ctx : String)
    (out : List TestCase)
    (h : resolve_point_values value cases ctx = Except.ok out) :
    out.length = cases.length ∧
    List.Forall₂ (fun c c' =>
      (c.points ≠ none → c' = c) ∧
      (c.points = none →
        c'.name = c.name ∧ c'.body = c.body ∧ c'.hidden = c.hidden ∧
        c'.success_message = c.success_message ∧
        c'.failure_message = c.failure_message ∧
        c'.points =
          some ((value - totalSpecified cases) / (numUnspecified cases : Rat))))
      cases out := by
  obtain ⟨-, -, rfl⟩ := resolve_ok_eq h
  refine ⟨by simp, ?_⟩
  rw [List.forall₂_map_right_iff]
  refine List.forall₂_same.mpr ?_
  intro c _
  constructor
  · intro hne
    cases h0 : c.points with
    | none => exact absurd h0 hne
    | some p => simp [fillCase, h0]
  · intro h0
    simp [fillCase, h0]

/-- C8, witness: the frame theorem applied at
`resolve(10, [points=2, None])`, whose output is `[points=2, points=8]`. -/
theorem claimC8_witness :
    resolve_point_values 10 [mkCase (some 2), mkCase none] "" =
      Except.ok [mkCase (some 2), mkCase (some 8)] ∧
    ([mkCase (some 2), mkCase (some 8)] : List TestCase).length =
      ([mkCase (some 2), mkCase none] : List TestCase).length ∧
    List.Forall₂ (fun c c' =>
      (c.points ≠ none → c' = c) ∧
      (c.points = none →
        c'.name = c.name ∧ c'.body = c.body ∧ c'.hidden = c.hidden ∧
        c'.success_message = c.success_message ∧
        c'.failure_message = c.failure_message ∧
        c'.points =
          some ((10 - totalSpecified [mkCase (some 2), mkCase none]) /
            (numUnspecified [mkCase (some 2), mkCase none] : Rat))))
      [mkCase (some 2), mkCase none] [mkCase (some 2), mkCase (some 8)] := by
  have h : resolve_point_values 10 [mkCase (some 2), mkCase none] "" =
      Except.ok [mkCase (some 2), mkCase (some 8)] := by
    norm_num [resolve_point_values, totalSpecified, numUnspecified, casePts,
      mkCase, fillCase, List.filterMap_cons]
  exact ⟨h, claimC8_frame 10 _ "" _ h⟩

/-- C9: every successfully constructed `TestFile` starts in the not-run
state: `test_case_results` is the empty list, `grade` is `None`, `passed_all`
is `None`, and `values` is exactly the list of resolved per-case points of
its (resolved) `test_cases`, in order. -/
theorem claimC9_initial_state (name path : String) (cs : List TestCase)
    (value : Rat) (aon : Bool) (tf : TestFile)
    (h : TestFile.init name path cs value aon = Except.ok tf) :
    tf.test_case_results = [] ∧ tf.grade = none ∧ tf.passed_all = none ∧
    tf.values = tf.test_cases.map (fun c => c.points) ∧
    resolve_point_values value cs "" = Except.ok tf.test_cases := by
  rw [TestFile.init] at h
  cases hres : resolve_point_values value cs "" with
  | error e =>
    rw [hres] at h
    exact Except.noConfusion h
  | ok resolved =>
    rw [hres] at h
    have htf := (Except.ok.injEq _ _).mp h
    subst htf
    exact ⟨rfl, rfl, rfl, rfl, rfl⟩

/-- C9, witness: the theorem applied to the concrete construction
`TestFile("q1", "tests/q1.py", [TestCase(points=None)], value=2)`. -/
theorem claimC9_witness :
    TestFile.init "q1" "tests/q1.py" [mkCase none] 2 true =
      Except.ok
        { name := "q1"
          path := "tests/q1.py"
          test_cases := [mkCase (some 2)]
          values := [some 2]
          passed_all := none
          all_or_nothing := true
          test_case_results := []
          grade := none } ∧
    ([] : List TestCaseResult) = [] ∧ (none : Option Rat) = none ∧
    (none : Option Bool) = none ∧
    ([some 2] : List (Option Rat)) =
      ([mkCase (some 2)] : List TestCase).map (fun c => c.points) ∧
    resolve_point_values 2 [mkCase none] "" = Except.ok [mkCase (some 2)] := by
  have hres : resolve_point_values 2 [mkCase none] "" =
      Except.ok [mkCase (some 2)] := by
    norm_num [resolve_point_values, totalSpecified, numUnspecified, casePts,
      mkCase, fillCase, List.filterMap_cons]
  have h : TestFile.init "q1" "tests/q1.py" [mkCase none] 2 true =
      Except.ok
        { name := "q1"
          path := "tests/q1.py"
          test_cases := [mkCase (some 2)]
          values := [some 2]
          passed_all := none
          all_or_nothing := true
          test_case_results := []
          grade := none } := by
    rw [TestFile.init, hres]
    norm_num [mkCase]
  exact ⟨h, claimC9_initial_state "q1" "tests/q1.py" [mkCase none] 2 true _ h⟩

/-! ## Helper lemmas about the grade aggregation -/

lemma lookup_eq_none_of_keys_ne {k : String} (l : List (String × CellVal))
    (h : ∀ p ∈ l, p.1 ≠ k) : l.lookup k = none := by
  induction l with
  | nil => rfl
  | cons p ps ih =>
    have hp : (k == p.1) = false := by
      exact beq_eq_false_iff_ne.mpr (Ne.symm (h p (by simp)))
    simp [List.lookup, hp, ih (fun q hq => h q (by simp [hq]))]

lemma lookup_append_right {k : String} (l₁ l₂ : List (String × CellVal))
    (h : l₁.lookup k = none) : (l₁ ++ l₂).lookup k = l₂.lookup k := by
  induction l₁ with
  | nil => rfl
  | cons p ps ih =>
    rw [List.cons_append]
    cases hpk : (k == p.1) with
    | true => simp [List.lookup, hpk] at h
    | false =>
      simp only [List.lookup, hpk] at h ⊢
      exact ih h

lemma applyRows_error_of_resolver_failure
    (f : CellVal → Except String CellVal)
    (rows : List (List (String × CellVal)))
    (hkeys : ∀ r ∈ rows, ∃ v, r.lookup "file" = some v)
    (hfail : ∃ r ∈ rows, ∃ v e, r.lookup "file" = some v ∧
      f v = Except.error e) :
    ∃ e, applyRows f rows = Except.error (MainError.resolverError e) := by
  induction rows with
  | nil =>
    obtain ⟨r, hr, -⟩ := hfail
    cases hr
  | cons r rs ih =>
    obtain ⟨v, hv⟩ := hkeys r (by simp)
    cases hf : f v with
    | error e =>
      exact ⟨e, by simp [applyRows, map_files_to_ids, hv, hf]⟩
    | ok idv =>
      have hfail' : ∃ r' ∈ rs, ∃ v' e', r'.lookup "file" = some v' ∧
          f v' = Except.error e' := by
        obtain ⟨r', hr', v', e', hv', hf'⟩ := hfail
        rcases List.mem_cons.mp hr' with h1 | h1
        · subst h1
          rw [hv] at hv'
          injection hv' with hvv
          subst hvv
          rw [hf] at hf'
          exact absurd hf' (by simp)
        · exact ⟨r', h1, v', e', hv', hf'⟩
      obtain ⟨e, he⟩ := ih (fun r' h' => hkeys r' (by simp [h'])) hfail'
      exact ⟨e, by simp [applyRows, map_files_to_ids, hv, hf, he]⟩

lemma applyRows_ok_of_all_mapped
    (f : CellVal → Except String CellVal)
    (rows : List (List (String × CellVal)))
    (hall : ∀ r ∈ rows, ∃ v w, r.lookup "file" = some v ∧ f v = Except.ok w) :
    ∃ rows', applyRows f rows = Except.ok rows' ∧
      List.Forall₂ (fun r r' => ∃ v w, r.lookup "file" = some v ∧
        f v = Except.ok w ∧ r' = r ++ [("identifier", w)]) rows rows' := by
  induction rows with
  | nil => exact ⟨[], rfl, List.Forall₂.nil⟩
  | cons r rs ih =>
    obtain ⟨v, w, hv, hw⟩ := hall r (by simp)
    obtain ⟨rs', hrs, hf2⟩ := ih (fun r' h' => hall r' (by simp [h']))
    refine ⟨(r ++ [("identifier", w)]) :: rs', ?_, ?_⟩
    · simp [applyRows, map_files_to_ids, hv, hw, hrs]
    · exact List.Forall₂.cons ⟨v, w, hv, hw, rfl⟩ hf2

lemma grade_main_run {a : GradeArgs} {env : GradeEnv}
    (hprune : a.prune = false) (hmeta : metaFlagCount a ≤ 1)
    (hpath : env.path_ok = true) (hjson : env.json_ok = true)
    (hyaml : env.yaml_ok = true) :
    Grade.main a env =
      match (if usesMetaParser a then apply_identifier env.file_to_id env.merged
             else Except.ok env.merged) with
      | Except.error e => Except.error e
      | Except.ok out =>
        Except.ok
          { prunedImages := false
            containersLaunched := true
            csvWritten := some out } := by
  rw [Grade.main, if_neg (by simp [hprune]), if_neg (by omega),
    if_neg (by simp [hpath]), if_neg (by simp [hjson]), if_neg (by simp [hyaml])]

/-! ## Claims about `otter.grade.main` -/

/-- C10: with `prune=True`, `main` only prunes the grading images and
returns at once: for every combination of the remaining arguments and every
environment (including invalid paths and conflicting metadata flags, whose
checks are never reached), the outcome is exactly `prune_images` having run,
no containers launched and no `final_grades.csv` written. -/
theorem claimC10_prune_short_circuit (a : GradeArgs) (env : GradeEnv)
    (h : a.prune = true) :
    Grade.main a env = Except.ok
      { prunedImages := true, containersLaunched := false, csvWritten := none } := by
  rw [Grade.main, if_pos h]

/-- C10, witness: the theorem applied to arguments that are otherwise
invalid (two metadata flags at once, all path checks failing). -/
theorem claimC10_witness :
    (⟨true, false, true, true, some "meta.json", none⟩ : GradeArgs).prune = true ∧
    Grade.main ⟨true, false, true, true, some "meta.json", none⟩
      ⟨false, false, false, fun _ => Except.error "unmapped", ⟨[], []⟩⟩ =
      Except.ok
        { prunedImages := true, containersLaunched := false, csvWritten := none } :=
  ⟨rfl, claimC10_prune_short_circuit _ _ rfl⟩

/-- C6: when a metadata parser is in use and `file_to_id` raises on some
row's filename, the failure propagates out of the aggregation uncaught —
`main` ends with that resolver error and never reaches the
`output_df.to_csv` call, so no `final_grades.csv` is written and no partial
output is produced. -/
theorem claimC6_resolver_failure_fatal (a : GradeArgs) (env : GradeEnv)
    (hprune : a.prune = false) (hmeta : metaFlagCount a ≤ 1)
    (huse : usesMetaParser a = true)
    (hpath : env.path_ok = true) (hjson : env.json_ok = true)
    (hyaml : env.yaml_ok = true)
    (hkeys : ∀ r ∈ env.merged.rows, ∃ v, r.lookup "file" = some v)
    (hfail : ∃ r ∈ env.merged.rows, ∃ v e, r.lookup "file" = some v ∧
      env.file_to_id v = Except.error e) :
    (∃ e, Grade.main a env = Except.error (MainError.resolverError e)) ∧
    ∀ o, Grade.main a env ≠ Except.ok o := by
  obtain ⟨e, he⟩ := applyRows_error_of_resolver_failure env.file_to_id
    env.merged.rows hkeys hfail
  have hmain : Grade.main a env = Except.error (MainError.resolverError e) := by
    rw [grade_main_run hprune hmeta hpath hjson hyaml, if_pos huse]
    simp [apply_identifier, he]
  refine ⟨⟨e, hmain⟩, ?_⟩
  intro o ho
  rw [hmain] at ho
  exact Except.noConfusion ho

/-- C6, witness: the theorem applied to a gradescope run over a one-row
merged table whose resolver rejects every filename. -/
theorem claimC6_witness :
    (⟨false, false, true, false, none, none⟩ : GradeArgs).prune = false ∧
    metaFlagCount ⟨false, false, true, false, none, none⟩ ≤ 1 ∧
    usesMetaParser ⟨false, false, true, false, none, none⟩ = true ∧
    ((∃ e, Grade.main ⟨false, false, true, false, none, none⟩
        ⟨true, true, true, fun _ => Except.error "unmapped filename",
          ⟨["file", "q1"], [[("file", CellVal.str "a.ipynb"), ("q1", CellVal.num 1)]]⟩⟩ =
        Except.error (MainError.resolverError e)) ∧
      ∀ o, Grade.main ⟨false, false, true, false, none, none⟩
        ⟨true, true, true, fun _ => Except.error "unmapped filename",
          ⟨["file", "q1"], [[("file", CellVal.str "a.ipynb"), ("q1", CellVal.num 1)]]⟩⟩ ≠
        Except.ok o) := by
  refine ⟨rfl, by decide, rfl, ?_⟩
  refine claimC6_resolver_failure_fatal _ _ rfl (by decide) rfl rfl rfl rfl ?_ ?_
  · intro r hr
    rw [List.mem_singleton] at hr
    subst hr
    exact ⟨CellVal.str "a.ipynb", rfl⟩
  · exact ⟨[("file", CellVal.str "a.ipynb"), ("q1", CellVal.num 1)], by simp,
      CellVal.str "a.ipynb", "unmapped filename", rfl, rfl⟩

lemma forall₂_imp_of_mem {α β : Type} {R S : α → β → Prop} :
    ∀ {l : List α} {u : List β}, List.Forall₂ R l u →
      (∀ a ∈ l, ∀ b, R a b → S a b) → List.Forall₂ S l u := by
  intro l u h
  induction h with
  | nil => exact fun _ => List.Forall₂.nil
  | cons hab h' ih =>
    intro himp
    exact List.Forall₂.cons (himp _ (by simp) _ hab)
      (ih (fun a ha b hb => himp a (by simp [ha]) b hb))

lemma apply_identifier_spec (f : CellVal → Except String CellVal) (t : Table)
    (hrowid : ∀ r ∈ t.rows, ∀ p ∈ r, p.1 ≠ "identifier")
    (hall : ∀ r ∈ t.rows, ∃ v w, r.lookup "file" = some v ∧ f v = Except.ok w) :
    ∃ t', apply_identifier f t = Except.ok t' ∧
      t'.cols = "identifier" :: t.cols.filter (fun c => c ≠ "file") ∧
      List.Forall₂ (fun r r' => ∀ v, r.lookup "file" = some v →
        ∃ w, f v = Except.ok w ∧ r'.lookup "identifier" = some w)
        t.rows t'.rows := by
  obtain ⟨rows', hrows, hf2⟩ := applyRows_ok_of_all_mapped f t.rows hall
  have hcols2 : (t.cols ++ ["identifier"]).filter (fun c => c ≠ "file") =
      t.cols.filter (fun c => c ≠ "file") ++ ["identifier"] := by
    rw [List.filter_append]
    simp
  refine ⟨⟨"identifier" :: t.cols.filter (fun c => c ≠ "file"),
    rows'.map (fun r => r.filter (fun p => p.1 ≠ "file"))⟩, ?_, rfl, ?_⟩
  · simp only [apply_identifier, hrows, hcols2, List.getLast?_concat,
      List.dropLast_concat, Option.toList_some]
    rfl
  · show List.Forall₂ _ t.rows (rows'.map (fun r => r.filter (fun p => p.1 ≠ "file")))
    rw [List.forall₂_map_right_iff]
    refine forall₂_imp_of_mem hf2 ?_
    intro r hr r' hrel v hv
    obtain ⟨v₀, w, hv₀, hw, rfl⟩ := hrel
    rw [hv₀] at hv
    injection hv with hvv
    subst hvv
    refine ⟨w, hw, ?_⟩
    rw [List.filter_append]
    have hfid : ([("identifier", w)].filter (fun p => p.1 ≠ "file")) =
        [("identifier", w)] := by simp
    rw [hfid, lookup_append_right]
    · simp [List.lookup]
    · refine lookup_eq_none_of_keys_ne _ ?_
      intro p hp
      exact hrowid r hr p (List.mem_of_mem_filter hp)

/-- C5: in a normal grading run, when a metadata parser is supplied each
row's filename is remapped through `file_to_id`, the resulting `identifier`
column is the first column of the written table and the raw `file` column is
absent from it; when no parser is supplied the merged table is written
unchanged (so its `file` column is retained). -/
theorem claimC5_identifier_column (a : GradeArgs) (env : GradeEnv)
    (hprune : a.prune = false) (hmeta : metaFlagCount a ≤ 1)
    (hpath : env.path_ok = true) (hjson : env.json_ok = true)
    (hyaml : env.yaml_ok = true) :
    (usesMetaParser a = false →
      Grade.main a env = Except.ok ⟨false, true, some env.merged⟩) ∧
    (usesMetaParser a = true →
      (∀ r ∈ env.merged.rows, ∀ p ∈ r, p.1 ≠ "identifier") →
      (∀ r ∈ env.merged.rows, ∃ v w, r.lookup "file" = some v ∧
        env.file_to_id v = Except.ok w) →
      ∃ t', Grade.main a env = Except.ok ⟨false, true, some t'⟩ ∧
        t'.cols = "identifier" :: env.merged.cols.filter (fun c => c ≠ "file") ∧
        t'.cols.head? = some "identifier" ∧
        "file" ∉ t'.cols ∧
        List.Forall₂ (fun r r' => ∀ v, r.lookup "file" = some v →
          ∃ w, env.file_to_id v = Except.ok w ∧
            r'.lookup "identifier" = some w)
          env.merged.rows t'.rows) := by
  constructor
  · intro hno
    rw [grade_main_run hprune hmeta hpath hjson hyaml, if_neg (by simp [hno])]
  · intro huse hrowid hall
    obtain ⟨t', happ, hcols, hf2⟩ :=
      apply_identifier_spec env.file_to_id env.merged hrowid hall
    refine ⟨t', ?_, hcols, ?_, ?_, hf2⟩
    · rw [grade_main_run hprune hmeta hpath hjson hyaml, if_pos huse, happ]
    · rw [hcols]
      rfl
    · rw [hcols]
      intro hmem
      rcases List.mem_cons.mp hmem with h1 | h1
      · exact absurd h1 (by decide)
      · have := List.of_mem_filter h1
        simp at this

/-- C5, witness: the theorem applied to a gradescope run over a one-row
merged table `["file", "q1"]` whose resolver maps every filename to the
identifier `student-1`. -/
theorem claimC5_witness :
    (⟨false, false, true, false, none, none⟩ : GradeArgs).prune = false ∧
    metaFlagCount ⟨false, false, true, false, none, none⟩ ≤ 1 ∧
    usesMetaParser ⟨false, false, true, false, none, none⟩ = true ∧
    ∃ t', Grade.main ⟨false, false, true, false, none, none⟩
        ⟨true, true, true, fun _ => Except.ok (CellVal.str "student-1"),
          ⟨["file", "q1"],
            [[("file", CellVal.str "a.ipynb"), ("q1", CellVal.num 1)]]⟩⟩ =
        Except.ok ⟨false, true, some t'⟩ ∧
      t'.cols = "identifier" ::
        (["file", "q1"] : List String).filter (fun c => c ≠ "file") ∧
      t'.cols.head? = some "identifier" ∧
      "file" ∉ t'.cols ∧
      List.Forall₂ (fun r r' => ∀ v, r.lookup "file" = some v →
        ∃ w, (Except.ok (CellVal.str "student-1") : Except String CellVal) =
            Except.ok w ∧
          r'.lookup "identifier" = some w)
        [[("file", CellVal.str "a.ipynb"), ("q1", CellVal.num 1)]] t'.rows := by
  refine ⟨rfl, by decide, rfl, ?_⟩
  exact (claimC5_identifier_column ⟨false, false, true, false, none, none⟩
      ⟨true, true, true, fun _ => Except.ok (CellVal.str "student-1"),
        ⟨["file", "q1"],
          [[("file", CellVal.str "a.ipynb"), ("q1", CellVal.num 1)]]⟩⟩
      rfl (by decide) rfl rfl rfl).2 rfl
    (by
      intro r hr p hp
      rw [List.mem_singleton] at hr
      subst hr
      simp only [List.mem_cons, List.not_mem_nil, or_false] at hp
      rcases hp with rfl | rfl <;> decide)
    (by
      intro r hr
      rw [List.mem_singleton] at hr
      subst hr
      exact ⟨CellVal.str "a.ipynb", CellVal.str "student-1", rfl, rfl⟩)

/-! ## Helper lemmas about the sandbox pool model -/

lemma sum_map_set (f : JobState → Nat) (l : List JobState) :
    ∀ (i : Nat) (a b : JobState), l.get? i = some a →
      ((l.set i b).map f).sum + f a = (l.map f).sum + f b := by
  induction l with
  | nil =>
    intro i a b h
    cases h
  | cons hd tl ih =>
    intro i a b h
    cases i with
    | zero =>
      injection h with h
      subst h
      simp only [List.set, List.map_cons, List.sum_cons]
      omega
    | succ n =>
      have h' : tl.get? n = some a := h
      have := ih n a b h'
      simp only [List.set, List.map_cons, List.sum_cons]
      omega

lemma runningCount_set {l : List JobState} {i : Nat} {a : JobState}
    (b : JobState) (h : l.get? i = some a) :
    runningCount (l.set i b) + runningWeight a =
      runningCount l + runningWeight b :=
  sum_map_set runningWeight l i a b h

lemma poolMeasure_set {l : List JobState} {i : Nat} {a : JobState}
    (b : JobState) (h : l.get? i = some a) :
    poolMeasure (l.set i b) + poolWeight a = poolMeasure l + poolWeight b :=
  sum_map_set poolWeight l i a b h

lemma runningCount_le_of_step {limit : Nat} {s t : List JobState}
    (hs : PoolStep limit s t) (h : runningCount s ≤ limit) :
    runningCount t ≤ limit := by
  cases hs with
  | start i hq hr =>
    have h2 := runningCount_set JobState.running hq
    rw [show runningWeight JobState.queued = 0 from rfl,
      show runningWeight JobState.running = 1 from rfl] at h2
    omega
  | finish i t' hq ht =>
    have h2 := runningCount_set t' hq
    have hw : runningWeight t' = 0 := by
      rcases ht with rfl | rfl <;> rfl
    rw [show runningWeight JobState.running = 1 from rfl, hw] at h2
    omega

lemma poolMeasure_decreases {limit : Nat} {s t : List JobState}
    (hs : PoolStep limit s t) : poolMeasure t < poolMeasure s := by
  cases hs with
  | start i hq hr =>
    have h2 := poolMeasure_set JobState.running hq
    rw [show poolWeight JobState.queued = 2 from rfl,
      show poolWeight JobState.running = 1 from rfl] at h2
    omega
  | finish i t' hq ht =>
    have h2 := poolMeasure_set t' hq
    have hw : poolWeight t' = 0 := by
      rcases ht with rfl | rfl <;> rfl
    rw [show poolWeight JobState.running = 1 from rfl, hw] at h2
    omega

lemma runningCount_replicate_queued (n : Nat) :
    runningCount (List.replicate n JobState.queued) = 0 := by
  unfold runningCount
  apply List.sum_eq_zero
  intro x hx
  obtain ⟨j, hj, rfl⟩ := List.mem_map.mp hx
  rw [List.eq_of_mem_replicate hj]
  rfl

lemma runningCount_eq_zero_of_not_mem {s : List JobState}
    (h : JobState.running ∉ s) : runningCount s = 0 := by
  unfold runningCount
  apply List.sum_eq_zero
  intro x hx
  obtain ⟨j, hj, rfl⟩ := List.mem_map.mp hx
  cases j with
  | running => exact absurd hj h
  | queued => rfl
  | completed => rfl
  | failed => rfl

lemma runningCount_le_of_reachable {limit n : Nat} {s : List JobState}
    (h : PoolReachable limit n s) : runningCount s ≤ limit := by
  induction h with
  | refl => rw [runningCount_replicate_queued]; exact Nat.zero_le limit
  | tail h' hstep ih => exact runningCount_le_of_step hstep ih

lemma pool_progress {limit : Nat} (hl : 0 < limit) (s : List JobState)
    (hstuck : ∀ t, ¬ PoolStep limit s t) :
    ∀ j ∈ s, j.isTerminal = true := by
  intro j hj
  cases j with
  | completed => rfl
  | failed => rfl
  | running =>
    obtain ⟨i, hi⟩ := List.mem_iff_get?.mp hj
    exact absurd (PoolStep.finish s i JobState.completed hi (Or.inl rfl))
      (hstuck _)
  | queued =>
    obtain ⟨i, hi⟩ := List.mem_iff_get?.mp hj
    by_cases hr : JobState.running ∈ s
    · obtain ⟨k, hk⟩ := List.mem_iff_get?.mp hr
      exact absurd (PoolStep.finish s k JobState.completed hk (Or.inl rfl))
        (hstuck _)
    · have h0 := runningCount_eq_zero_of_not_mem hr
      exact absurd (PoolStep.start s i hi (by omega)) (hstuck _)

/-! ## Claim about the sandbox pool -/

/-- C7 (modelled from the spec, the SandboxPool implementation not being
under `src/`): for every positive `concurrency_limit` and every pool state
reachable from a batch of queued jobs, (i) at most `concurrency_limit` jobs
are in the `running` state; (ii) every scheduler transition strictly
decreases the pool's progress measure, so no execution runs forever; and
(iii) a state from which no transition exists has every job in a terminal
state — together: the running-state invariant holds at every instant and
every submitted job eventually reaches a terminal state. -/
theorem claimC7_bounded_concurrency (limit n : Nat) (hl : 0 < limit)
    (s : List JobState) (hreach : PoolReachable limit n s) :
    runningCount s ≤ limit ∧
    (∀ t, PoolStep limit s t → poolMeasure t < poolMeasure s) ∧
    ((∀ t, ¬ PoolStep limit s t) → ∀ j ∈ s, j.isTerminal = true) :=
  ⟨runningCount_le_of_reachable hreach,
    fun _ hstep => poolMeasure_decreases hstep,
    fun hstuck => pool_progress hl s hstuck⟩

/-- C7, witness: the theorem applied to 5 jobs and `concurrency_limit = 2`
at the initial (all-queued) state. -/
theorem claimC7_witness :
    0 < 2 ∧
    (runningCount (List.replicate 5 JobState.queued) ≤ 2 ∧
      (∀ t, PoolStep 2 (List.replicate 5 JobState.queued) t →
        poolMeasure t < poolMeasure (List.replicate 5 JobState.queued)) ∧
      ((∀ t, ¬ PoolStep 2 (List.replicate 5 JobState.queued) t) →
        ∀ j ∈ List.replicate 5 JobState.queued, j.isTerminal = true)) :=
  ⟨by decide, claimC7_bounded_concurrency 2 5 (by decide) _
    Relation.ReflTransGen.refl⟩
